import Mathlib

/-!
Verification of the robot-emulation core (differential-drive kinematics,
command ingestion, boundary policy, formation placement, MQTT dispatch).

Python floats are modelled as exact real numbers, Python ints as `ℤ`
(or `ℕ` for loop indices), and the mutation of a `Robot` object is
modelled by functions returning the updated record.  A Python statement
sequence that can raise midway is modelled by returning the state as it
was at the point the exception was raised (the caller catches it).
-/

namespace RobotEmulation

open Real

/-- `Position` dataclass from `core/robot.py`: x, y and orientation (radians). -/
structure Position where
  x : ℝ
  y : ℝ
  orientation : ℝ

/-- The mutable state of one `Robot` object from `core/robot.py`
(`wheel_radius`, `wheel_base`, `max_speed` are the fixed constants below;
`running` is never read by the modelled operations and is omitted). -/
structure Robot where
  id : ℤ
  position : Position
  worldSize : ℝ
  leftMotorPower : ℝ
  rightMotorPower : ℝ

/-- `self.wheel_base = 0.2` in `Robot.__init__`. -/
def wheelBase : ℝ := 0.2

/-- `self.max_speed = 1.0` in `Robot.__init__`. -/
def maxSpeed : ℝ := 1.0

/-- A value stored in a command dict: either one on which Python's
`float()` succeeds (yielding the real `x`), or one on which it raises
`ValueError`/`TypeError` (a non-numeric string, a list, ...). -/
inductive FieldVal where
  | num (x : ℝ)
  | malformed

/-- Python `float(v)`: `some` the numeric value, `none` when it raises. -/
def toFloat : FieldVal → Option ℝ
  | .num x => some x
  | .malformed => none

/-- A structured command dict; `none` models an absent key
(`dict.get` then returns the default `0`). -/
structure CmdDict where
  left : Option FieldVal
  right : Option FieldVal

/-- A decoded command payload: a JSON dict, or a plain string
(the backward-compatibility fallback). -/
inductive Command where
  | dict (d : CmdDict)
  | str (s : String)

/-- `max(-1.0, min(1.0, v))` from `Robot.process_command`. -/
noncomputable def clampPower (v : ℝ) : ℝ := max (-1.0) (min 1.0 v)

/-- `Robot.process_command` from `core/robot.py`.  In the dict branch the
two assignments run in order: if `float()` raises on the `left` value
nothing has been assigned yet, and if it raises on the `right` value the
left motor power has already been overwritten; the `except` clause only
logs, so the state at the raise point is the final state. -/
noncomputable def processCommand (r : Robot) (c : Command) : Robot :=
  match c with
  | .dict d =>
    match toFloat (d.left.getD (.num 0)) with
    | none => r
    | some l =>
      let r1 := { r with leftMotorPower := clampPower l }
      match toFloat (d.right.getD (.num 0)) with
      | none => r1
      | some v => { r1 with rightMotorPower := clampPower v }
  | .str s =>
    if s = "l" then { r with leftMotorPower := 1.0, rightMotorPower := 0.0 }
    else if s = "r" then { r with leftMotorPower := 0.0, rightMotorPower := 1.0 }
    else if s = "s" then { r with leftMotorPower := 0.0, rightMotorPower := 0.0 }
    else { r with leftMotorPower := 1.0, rightMotorPower := 1.0 }

/-- The branch structure of `Robot.update_position` lines 54-75: wheel
velocities, straight-line branch when `abs(v_left - v_right) < 0.001`,
turning branch guarded again by `abs(v_right - v_left) > 0.001`
(orientation updated before translating); when neither guard holds the
pose is left untouched. -/
noncomputable def kinAdvance (wb ms : ℝ) (lp rp : ℝ) (p : Position) (dt : ℝ) :
    Position :=
  -- v_left = lp * ms, v_right = rp * ms, velocity = their mean,
  -- omega = (v_right - v_left) / wb; the locals are inlined here
  if |lp * ms - rp * ms| < 0.001 then
    ⟨p.x + (lp * ms + rp * ms) / 2 * Real.cos p.orientation * dt,
     p.y + (lp * ms + rp * ms) / 2 * Real.sin p.orientation * dt,
     p.orientation⟩
  else if |rp * ms - lp * ms| > 0.001 then
    ⟨p.x + (lp * ms + rp * ms) / 2
        * Real.cos (p.orientation + (rp * ms - lp * ms) / wb * dt) * dt,
     p.y + (lp * ms + rp * ms) / 2
        * Real.sin (p.orientation + (rp * ms - lp * ms) / wb * dt) * dt,
     p.orientation + (rp * ms - lp * ms) / wb * dt⟩
  else p

/-- Python's float `%` for a positive modulus: `x - m * ⌊x / m⌋`,
landing in `[0, m)`. -/
noncomputable def pymod (x m : ℝ) : ℝ := x - m * ⌊x / m⌋

/-- Line 78 of `core/robot.py`: `self.position.orientation %= 2π`. -/
noncomputable def normalizeOrientation (p : Position) : Position :=
  ⟨p.x, p.y, pymod p.orientation (2 * π)⟩

/-- Lines 81-86 of `core/robot.py`: clamp an out-of-range x to the wall
and set orientation to `π - orientation`. -/
noncomputable def applyBoundaryX (ws : ℝ) (p : Position) : Position :=
  if p.x < 0 then ⟨0, p.y, π - p.orientation⟩
  else if p.x > ws then ⟨ws, p.y, π - p.orientation⟩
  else p

/-- Lines 88-93 of `core/robot.py`: clamp an out-of-range y to the wall
and set orientation to `-orientation`. -/
noncomputable def applyBoundaryY (ws : ℝ) (p : Position) : Position :=
  if p.y < 0 then ⟨p.x, 0, -p.orientation⟩
  else if p.y > ws then ⟨p.x, ws, -p.orientation⟩
  else p

/-- Lines 80-93 of `core/robot.py`: the x-wall check runs first, then the
y-wall check sees the orientation already rewritten by the x check. -/
noncomputable def applyBoundary (ws : ℝ) (p : Position) : Position :=
  applyBoundaryY ws (applyBoundaryX ws p)

/-- `Robot.update_position`: kinematic advance, then orientation
normalization, then the wall-bounce boundary policy. -/
noncomputable def updatePosition (r : Robot) (dt : ℝ) : Robot :=
  let p' :=
    applyBoundary r.worldSize
      (normalizeOrientation
        (kinAdvance wheelBase maxSpeed r.leftMotorPower r.rightMotorPower
          r.position dt))
  { r with position := p' }

/-- The dict returned by `Robot.get_status`. -/
structure Status where
  robot_id : ℤ
  x : ℝ
  y : ℝ
  orientation : ℝ

/-- Python `round(x, n)` to `n` decimal places (ties modelled with
Mathlib's `round`). -/
noncomputable def pyround (x : ℝ) (n : ℕ) : ℝ := round (x * 10 ^ n) / 10 ^ n

/-- `math.degrees`. -/
noncomputable def degrees (x : ℝ) : ℝ := x * 180 / π

/-- `Robot.get_status`: id, coordinates rounded to 3 decimals, and the
orientation converted to degrees and rounded to 1 decimal. -/
noncomputable def get_status (r : Robot) : Status :=
  ⟨r.id, pyround r.position.x 3, pyround r.position.y 3,
   pyround (degrees r.position.orientation) 1⟩

/-- Helper for Python's `str.split('/')`: walk the characters, cutting at
every slash; `acc` holds the (reversed) characters of the piece being
built. -/
def splitSlashAux : List Char → List Char → List String
  | [], acc => [String.mk acc.reverse]
  | c :: cs, acc =>
    if c = '/' then String.mk acc.reverse :: splitSlashAux cs []
    else splitSlashAux cs (c :: acc)

/-- `topic.split('/')` from `RobotWorld._on_mqtt_message`. -/
def pySplit (s : String) : List String := splitSlashAux s.toList []

/-- Digit run of Python `int(s)`: `none` when a non-digit appears
(`ValueError`) or the run is empty. -/
def digitsToNat : List Char → ℕ → Option ℕ
  | [], acc => some acc
  | c :: cs, acc =>
    if c.isDigit then digitsToNat cs (acc * 10 + (c.toNat - 48))
    else none

/-- Python `int(s)` on an optionally `-`-signed digit string; `none`
models the `ValueError` that the handler's `except` swallows. -/
def pyInt (s : String) : Option ℤ :=
  match s.toList with
  | [] => none
  | '-' :: cs =>
    if cs = [] then none else (digitsToNat cs 0).map (fun n => -(n : ℤ))
  | cs => (digitsToNat cs 0).map (fun n => (n : ℤ))

/-- The `for robot in self.robots: if robot.id == robot_id: ...; break`
loop of `RobotWorld._on_mqtt_message`: only the first robot with a
matching id processes the command. -/
noncomputable def dispatchCommand (robots : List Robot) (rid : ℤ)
    (c : Command) : List Robot :=
  match robots with
  | [] => []
  | r :: rest =>
    if r.id = rid then processCommand r c :: rest
    else r :: dispatchCommand rest rid c

/-- `RobotWorld._on_mqtt_message`, with the payload already decoded to a
`Command` (the JSON-or-string decoding keeps the handler total): split the
topic on `/`, require at least 3 parts with first part `"robot"`, parse
the robot id from the second part, and forward to the matching robot; any
failure leaves every robot untouched (the `except` only prints). -/
noncomputable def on_mqtt_message (robots : List Robot) (topic : String)
    (payload : Command) : List Robot :=
  if 3 ≤ (pySplit topic).length ∧ (pySplit topic).getD 0 "" = "robot" then
    match pyInt ((pySplit topic).getD 1 "") with
    | some rid => dispatchCommand robots rid payload
    | none => robots
  else robots

/-- The topic `RobotWorld._on_mqtt_connect` subscribes to for a robot:
`f"robots/{robot.id}/command"`. -/
def subscriptionTopic (rid : ℤ) : String :=
  "robots/" ++ toString rid ++ "/command"

/-- `math.ceil(math.sqrt(num_robots))` from
`RobotWorld._initialize_robots`, for a positive count. -/
noncomputable def gridSize (n : ℕ) : ℕ := ⌈Real.sqrt n⌉₊

/-- `RobotWorld._initialize_robots`: raises (`none`) for `n ≤ 0` before
creating any robot; otherwise robot `i` sits at grid cell
`(row, col) = (i / gridSize, i % gridSize)` with
`spacing = worldSize / (gridSize + 1)` at
`(spacing * (col + 1), spacing * (row + 1))`.  The random initial
orientation is supplied by the oracle `heading`. -/
noncomputable def initializeRobots (ws : ℝ) (n : ℤ) (heading : ℕ → ℝ) :
    Option (List Robot) :=
  if n ≤ 0 then none
  else
    -- spacing = ws / (grid_size + 1); row = i // grid_size, col = i % grid_size
    some ((List.range n.toNat).map (fun (i : ℕ) =>
      { id := (i : ℤ)
        position :=
          ⟨ws / ((gridSize n.toNat : ℝ) + 1) * ((i % gridSize n.toNat + 1 : ℕ) : ℝ),
           ws / ((gridSize n.toNat : ℝ) + 1) * ((i / gridSize n.toNat + 1 : ℕ) : ℝ),
           heading i⟩
        worldSize := ws
        leftMotorPower := 0
        rightMotorPower := 0 }))

/-- The kinematic advance as the specification words it, amended only at
the measure-zero guard boundary: `vLeft = left * maxLinearSpeed`,
`vRight = right * maxLinearSpeed`, `velocity = (vLeft + vRight) / 2`; for
`|vLeft - vRight| < 0.001` straight-line motion along the current heading
by `velocity * dt` with heading unchanged; for `0.001 < |vLeft - vRight|`
the new heading `heading + (vRight - vLeft) / wheelBase * dt` is computed
first and the position advances along it by `velocity * dt`; at
`|vLeft - vRight| = 0.001` exactly, the pose is returned unchanged. -/
noncomputable def specAdvance (wb ms : ℝ) (lp rp : ℝ) (p : Position)
    (dt : ℝ) : Position :=
  if |lp * ms - rp * ms| < 0.001 then
    ⟨p.x + (lp * ms + rp * ms) / 2 * dt * Real.cos p.orientation,
     p.y + (lp * ms + rp * ms) / 2 * dt * Real.sin p.orientation,
     p.orientation⟩
  else if 0.001 < |lp * ms - rp * ms| then
    ⟨p.x + (lp * ms + rp * ms) / 2 * dt
        * Real.cos (p.orientation + (rp * ms - lp * ms) / wb * dt),
     p.y + (lp * ms + rp * ms) / 2 * dt
        * Real.sin (p.orientation + (rp * ms - lp * ms) / wb * dt),
     p.orientation + (rp * ms - lp * ms) / wb * dt⟩
  else p

/-- Modelled from the spec: a "turn-left-in-place" motor pair.  In place
means no net translation — the mean wheel power, hence the velocity
`(vLeft + vRight) / 2`, is zero — and a left turn increases the heading
under the spec's `(cos heading, sin heading)` forward convention, which
by `angularVelocity = (vRight - vLeft) / wheelBase` requires the right
wheel to be the faster one. -/
def isTurnLeftInPlace (l r : ℝ) : Prop := l + r = 0 ∧ l < r

/-- Modelled from the spec: a "turn-right-in-place" motor pair — no net
translation and a decreasing heading (left wheel faster). -/
def isTurnRightInPlace (l r : ℝ) : Prop := l + r = 0 ∧ r < l

/-! ## General lemmas about the embedded operations -/

/-- Python's float `%` with positive modulus lands in `[0, m)`. -/
theorem pymod_mem (x m : ℝ) (hm : 0 < m) : pymod x m ∈ Set.Ico 0 m := by
  have hfr : pymod x m = m * Int.fract (x / m) := by
    unfold pymod Int.fract
    field_simp
  constructor
  · rw [hfr]
    exact mul_nonneg hm.le (Int.fract_nonneg _)
  · rw [hfr]
    calc m * Int.fract (x / m) < m * 1 :=
          (mul_lt_mul_left hm).mpr (Int.fract_lt_one _)
    _ = m := mul_one m

/-- `x % m` is the identity on `[0, m)`. -/
theorem pymod_eq_self (x m : ℝ) (hm : 0 < m) (h0 : 0 ≤ x) (h1 : x < m) :
    pymod x m = x := by
  unfold pymod
  have : ⌊x / m⌋ = 0 := by
    rw [Int.floor_eq_zero_iff]
    constructor
    · positivity
    · rw [div_lt_one hm]
      exact h1
  rw [this]
  simp

/-- Rounding to `n` decimals moves a value by at most half of the last
kept decimal place. -/
theorem pyround_close (x : ℝ) (n : ℕ) : |pyround x n - x| ≤ 1 / (2 * 10 ^ n) := by
  unfold pyround
  have h10 : (0 : ℝ) < 10 ^ n := by positivity
  have hrw : round (x * 10 ^ n) / 10 ^ n - x
      = (round (x * 10 ^ n) - x * 10 ^ n) / 10 ^ n := by
    field_simp
    ring
  rw [hrw, abs_div, abs_of_pos h10, div_le_div_iff₀ h10 (by positivity)]
  have hb := abs_sub_round (x * 10 ^ n)
  rw [abs_sub_comm] at hb
  calc |(round (x * 10 ^ n) : ℝ) - x * 10 ^ n| * (2 * 10 ^ n)
      ≤ (1 / 2) * (2 * 10 ^ n) := by
        apply mul_le_mul_of_nonneg_right hb
        positivity
    _ = 1 * 10 ^ n := by ring

/-- `ceil(sqrt(4)) = 2`. -/
theorem gridSize_four : gridSize 4 = 2 := by
  unfold gridSize
  rw [show ((4 : ℕ) : ℝ) = (2 : ℝ) ^ 2 by norm_num,
    Real.sqrt_sq (by norm_num : (0 : ℝ) ≤ 2)]
  rw [show (2 : ℝ) = ((2 : ℕ) : ℝ) by norm_num, Nat.ceil_natCast]

/-! ## C1: the kinematic advance -/

/-- C1 (amended): the kinematic advance computes exactly the straight /
turning update the specification describes — wheel velocities scaled by
`maxLinearSpeed`, straight-line motion along the current heading when
`|vLeft - vRight| < 0.001`, and for `0.001 < |vLeft - vRight|` the heading
updated first and the translation taken along the new heading; in the
remaining case `|vLeft - vRight| = 0.001` exactly, the code's two guards
both fail and the pose is returned unchanged. -/
theorem kinAdvance_eq_specAdvance (wb ms lp rp : ℝ) (p : Position) (dt : ℝ) :
    kinAdvance wb ms lp rp p dt = specAdvance wb ms lp rp p dt := by
  unfold kinAdvance specAdvance
  have habs : |rp * ms - lp * ms| = |lp * ms - rp * ms| := abs_sub_comm _ _
  split_ifs with h1 h2 h4 h4'
  · congr 1 <;> ring
  · congr 1 <;> ring
  · rw [habs] at h2
    exact absurd h2 h4
  · rw [habs] at h2
    exact absurd h4' h2
  · rfl

/-- C1 counterexample: with `left = 0.001`, `right = 0`, `maxSpeed = 1`
the wheel-velocity difference is exactly `0.001`, so the straight-line
guard fails (second conjunct) and the claim mandates the turning update
with new heading `0 + ((0 - 0.001) / 0.2) * 1 ≠ 0` (third conjunct), yet
the code leaves the pose — in particular the heading `0` — unchanged
(first conjunct). -/
theorem kinAdvance_eps_boundary_ctr :
    kinAdvance 0.2 1 0.001 0 ⟨0, 0, 0⟩ 1 = ⟨0, 0, 0⟩ ∧
    ¬ |(0.001 : ℝ) * 1 - 0 * 1| < 0.001 ∧
    (0 : ℝ) + ((0 : ℝ) * 1 - 0.001 * 1) / 0.2 * 1 ≠ 0 := by
  refine ⟨?_, by norm_num [abs_of_pos], by norm_num⟩
  unfold kinAdvance
  norm_num [abs_of_pos]

/-! ## C2: command dispatch by topic -/

/-- The message handler never dispatches a message arriving on any of the
topics the world actually subscribes to: it filters on the topic prefix
`robot` while the subscriptions use `robots`. -/
theorem subscribed_topic_never_dispatches (robots : List Robot) (rid : ℤ)
    (payload : Command) :
    on_mqtt_message robots (subscriptionTopic rid) payload = robots := by
  have hdata : (subscriptionTopic rid).toList =
      'r' :: 'o' :: 'b' :: 'o' :: 't' :: 's' :: '/' ::
        ((toString rid ++ "/command").toList) := by
    show ("robots/" ++ toString rid ++ "/command").data = _
    simp [String.data_append]
  have hsplit : pySplit (subscriptionTopic rid) =
      "robots" :: splitSlashAux ((toString rid ++ "/command").toList) [] := by
    unfold pySplit
    rw [hdata]
    simp [splitSlashAux]
  have hne : ¬ (3 ≤ (pySplit (subscriptionTopic rid)).length ∧
      (pySplit (subscriptionTopic rid)).getD 0 "" = "robot") := by
    rw [hsplit]
    intro hcontra
    have h2 := hcontra.2
    rw [List.getD_cons_zero] at h2
    exact absurd h2 (by decide)
  unfold on_mqtt_message
  rw [if_neg hne]

/-- C2: a stop command published on `robots/0/command` — the very topic
`_on_mqtt_connect` subscribes for robot 0 (second conjunct) — leaves
robot 0's motor state untouched (first conjunct), even though the same
payload arriving on the singular topic `robot/0/command` would have
zeroed both motors (third conjunct), a real state change (fourth
conjunct): the handler's `topic_parts[0] == "robot"` check can never
match a subscribed topic. -/
theorem mqtt_topic_prefix_bug :
    on_mqtt_message [⟨0, ⟨5, 5, 0⟩, 10, 0.5, 0.5⟩] "robots/0/command" (.str "s")
      = [⟨0, ⟨5, 5, 0⟩, 10, 0.5, 0.5⟩] ∧
    subscriptionTopic 0 = "robots/0/command" ∧
    on_mqtt_message [⟨0, ⟨5, 5, 0⟩, 10, 0.5, 0.5⟩] "robot/0/command" (.str "s")
      = [⟨0, ⟨5, 5, 0⟩, 10, 0.0, 0.0⟩] ∧
    (0.5 : ℝ) ≠ 0.0 := by
  refine ⟨?_, by decide, ?_, by norm_num⟩
  · unfold on_mqtt_message
    rw [if_neg (by decide)]
  · unfold on_mqtt_message
    rw [if_pos (by decide)]
    have hp : pyInt ((pySplit "robot/0/command").getD 1 "") = some 0 := by decide
    rw [hp]
    simp +decide [dispatchCommand, processCommand]

/-! ## C3: malformed structured commands -/

/-- C3 (amended): a structured command whose `left` value is malformed is
rejected with no mutation at all, but when `left` parses and only `right`
is malformed the left motor power has already been overwritten (clamped)
by the time the exception fires — the rejection is not atomic. -/
theorem processCommand_malformed (r : Robot) (d : CmdDict) :
    (toFloat (d.left.getD (.num 0)) = none → processCommand r (.dict d) = r) ∧
    (∀ l, toFloat (d.left.getD (.num 0)) = some l →
      toFloat (d.right.getD (.num 0)) = none →
      processCommand r (.dict d) = { r with leftMotorPower := clampPower l }) := by
  constructor
  · intro h
    simp [processCommand, h]
  · intro l hl hr
    simp [processCommand, hl, hr]

/-- C3 witness: a command with a malformed `left` value leaves the robot
exactly as it was. -/
theorem processCommand_malformed_witness :
    processCommand ⟨0, ⟨0, 0, 0⟩, 10, 0.3, 0.4⟩
        (.dict ⟨some .malformed, some (.num 2)⟩)
      = ⟨0, ⟨0, 0, 0⟩, 10, 0.3, 0.4⟩ :=
  (processCommand_malformed _ _).1 rfl

/-- C3 counterexample: from prior motor state `(0.5, 0.5)`, the command
`{"left": 1, "right": <malformed>}` updates the left motor to `1` (first
conjunct) although its prior value was `0.5` (second conjunct) — the
malformed command mutated state, so the rejection was not atomic. -/
theorem processCommand_partial_update_ctr :
    (processCommand ⟨0, ⟨5, 5, 0⟩, 10, 0.5, 0.5⟩
        (.dict ⟨some (.num 1), some .malformed⟩)).leftMotorPower = 1 ∧
    (Robot.leftMotorPower ⟨0, ⟨5, 5, 0⟩, 10, 0.5, 0.5⟩) = 0.5 ∧
    (1 : ℝ) ≠ 0.5 := by
  refine ⟨?_, rfl, by norm_num⟩
  simp [processCommand, toFloat, clampPower]
  norm_num

/-! ## C4: legacy string tokens -/

/-- C4 (amended): for any prior state, legacy token `"l"` yields motor
powers `(1.0, 0.0)` — a pivot about the stopped right wheel, not an
in-place turn — `"r"` yields `(0.0, 1.0)`, `"s"` yields `(0.0, 0.0)`,
and any other token yields full forward `(1.0, 1.0)`. -/
theorem processCommand_legacy (r : Robot) :
    processCommand r (.str "l")
      = { r with leftMotorPower := 1.0, rightMotorPower := 0.0 } ∧
    processCommand r (.str "r")
      = { r with leftMotorPower := 0.0, rightMotorPower := 1.0 } ∧
    processCommand r (.str "s")
      = { r with leftMotorPower := 0.0, rightMotorPower := 0.0 } ∧
    (∀ s : String, s ≠ "l" → s ≠ "r" → s ≠ "s" →
      processCommand r (.str s)
        = { r with leftMotorPower := 1.0, rightMotorPower := 1.0 }) := by
  refine ⟨?_, ?_, ?_, ?_⟩
  · simp +decide [processCommand]
  · simp +decide [processCommand]
  · simp +decide [processCommand]
  · intro s hl hr hs
    simp only [processCommand]
    rw [if_neg hl, if_neg hr, if_neg hs]

/-- C4 witness: an unknown token maps to full-forward-both-wheels. -/
theorem processCommand_legacy_witness :
    processCommand ⟨1, ⟨2, 3, 0⟩, 10, 0.5, -0.5⟩ (.str "x")
      = ⟨1, ⟨2, 3, 0⟩, 10, 1.0, 1.0⟩ :=
  (processCommand_legacy _).2.2.2 "x" (by decide) (by decide) (by decide)

/-- C4 counterexample: token `"l"` yields motor powers `(1, 0)`, and
`(1, 0)` is not a turn-left-in-place pair (its mean wheel power is
`1/2 ≠ 0`, so the robot translates, and the left wheel is the faster
one, so the heading decreases). -/
theorem legacy_l_not_in_place_ctr :
    (processCommand ⟨0, ⟨0, 0, 0⟩, 10, 0.2, 0.3⟩ (.str "l")).leftMotorPower = 1 ∧
    (processCommand ⟨0, ⟨0, 0, 0⟩, 10, 0.2, 0.3⟩ (.str "l")).rightMotorPower = 0 ∧
    ¬ isTurnLeftInPlace 1 0 := by
  refine ⟨?_, ?_, ?_⟩
  · simp +decide [processCommand]
    norm_num
  · simp +decide [processCommand]
    norm_num
  · intro h
    have := h.1
    norm_num at this

/-! ## C5: the update with `dt ≤ 0` -/

/-- C5 (amended): the code has no `dt ≤ 0` guard.  `dt = 0` does return
the pose unchanged, but only because every additive term vanishes and
because normalization and the boundary policy are the identity on a pose
whose heading is already in `[0, 2π)` and whose coordinates are inside
`[0, worldSize]`. -/
theorem updatePosition_zero_dt (r : Robot)
    (hx0 : 0 ≤ r.position.x) (hx1 : r.position.x ≤ r.worldSize)
    (hy0 : 0 ≤ r.position.y) (hy1 : r.position.y ≤ r.worldSize)
    (ho0 : 0 ≤ r.position.orientation)
    (ho1 : r.position.orientation < 2 * Real.pi) :
    updatePosition r 0 = r := by
  have hkin : kinAdvance wheelBase maxSpeed r.leftMotorPower
      r.rightMotorPower r.position 0 = r.position := by
    unfold kinAdvance
    split_ifs <;> simp
  have hnorm : normalizeOrientation r.position = r.position := by
    unfold normalizeOrientation
    rw [pymod_eq_self _ _ Real.two_pi_pos ho0 ho1]
  have hbd : applyBoundary r.worldSize r.position = r.position := by
    unfold applyBoundary applyBoundaryX applyBoundaryY
    rw [if_neg (not_lt.mpr hx0), if_neg (not_lt.mpr hx1),
      if_neg (not_lt.mpr hy0), if_neg (not_lt.mpr hy1)]
  unfold updatePosition
  rw [hkin, hnorm, hbd]

/-- C5 witness: a robot inside the arena with normalized heading is left
unchanged by a `dt = 0` update. -/
theorem updatePosition_zero_dt_witness :
    updatePosition ⟨0, ⟨5, 5, 1⟩, 10, 0.3, 0.7⟩ 0
      = ⟨0, ⟨5, 5, 1⟩, 10, 0.3, 0.7⟩ :=
  updatePosition_zero_dt ⟨0, ⟨5, 5, 1⟩, 10, 0.3, 0.7⟩ (by norm_num)
    (by norm_num) (by norm_num) (by norm_num) (by norm_num)
    (by nlinarith [Real.pi_gt_three])

/-- C5 counterexample: with `dt = -1 ≤ 0` (third conjunct), full-forward
motors and heading `0`, the robot at `x = 5` is moved back to `x = 4`
(first conjunct), not returned unchanged (`4 ≠ 5`, second conjunct):
there is no `dt ≤ 0` no-op guard in the code. -/
theorem updatePosition_negative_dt_ctr :
    (updatePosition ⟨0, ⟨5, 5, 0⟩, 10, 1, 1⟩ (-1)).position.x = 4 ∧
    (4 : ℝ) ≠ 5 ∧ (-1 : ℝ) ≤ 0 := by
  refine ⟨?_, by norm_num, by norm_num⟩
  unfold updatePosition kinAdvance normalizeOrientation applyBoundary
    applyBoundaryX applyBoundaryY pymod wheelBase maxSpeed
  norm_num

/-! ## C6: the heading-normalization invariant -/

/-- C6 (amended): after the kinematic advance the heading is normalized
into `[0, 2π)` — but this happens before the boundary policy, whose
reflections are applied afterwards and can leave the range. -/
theorem heading_normalized_before_boundary (r : Robot) (dt : ℝ) :
    (normalizeOrientation (kinAdvance wheelBase maxSpeed r.leftMotorPower
        r.rightMotorPower r.position dt)).orientation
      ∈ Set.Ico 0 (2 * Real.pi) :=
  pymod_mem _ _ Real.two_pi_pos

/-- C6 counterexample: a robot heading straight down (`3π/2 ∈ [0, 2π)`)
near the bottom wall bounces: the y-wall reflection negates the already
normalized heading, and the tick ends with heading `-3π/2 < 0`, outside
the claimed range `[0, 2π)`. -/
theorem heading_range_violated_after_bounce_ctr :
    (updatePosition ⟨0, ⟨5, 0.5, 3 * Real.pi / 2⟩, 10, 1, 1⟩ 1).position.orientation
      = -(3 * Real.pi / 2) ∧ ¬ (0 ≤ -(3 * Real.pi / 2)) := by
  have hπ := Real.pi_pos
  have h32 : (3 : ℝ) * Real.pi / 2 = Real.pi / 2 + Real.pi := by ring
  have hc : Real.cos (3 * Real.pi / 2) = 0 := by
    rw [h32, Real.cos_add_pi, Real.cos_pi_div_two, neg_zero]
  have hs : Real.sin (3 * Real.pi / 2) = -1 := by
    rw [h32, Real.sin_add_pi, Real.sin_pi_div_two]
  have hfl : ⌊3 * Real.pi / 2 / (2 * Real.pi)⌋ = 0 := by
    have hq : 3 * Real.pi / 2 / (2 * Real.pi) = 3 / 4 := by
      field_simp
      ring
    rw [hq]
    norm_num
  constructor
  · unfold updatePosition kinAdvance normalizeOrientation applyBoundary
      applyBoundaryX applyBoundaryY pymod wheelBase maxSpeed
    norm_num [hc, hs, hfl]
  · intro h
    nlinarith

/-! ## C7: the wall-bounce boundary policy -/

/-- C7: in an arena of nonnegative side, a coordinate leaving
`[0, worldSize]` is clamped to the violated wall; an x crossing turns the
heading into `π - heading`, a y crossing into `-heading` (both applied in
that order when both walls are crossed); and concretely, a robot sitting
at `x = worldSize` with heading `0` driving full forward for one tick
ends the tick clamped at `x = worldSize` with heading `π`. -/
theorem boundary_reflection (ws : ℝ) (p : Position) (hws : 0 ≤ ws) :
    (p.x < 0 → (applyBoundary ws p).x = 0) ∧
    (ws < p.x → (applyBoundary ws p).x = ws) ∧
    (0 ≤ p.x → p.x ≤ ws → (applyBoundary ws p).x = p.x) ∧
    (p.y < 0 → (applyBoundary ws p).y = 0) ∧
    (ws < p.y → (applyBoundary ws p).y = ws) ∧
    (0 ≤ p.y → p.y ≤ ws → (applyBoundary ws p).y = p.y) ∧
    ((p.x < 0 ∨ ws < p.x) → 0 ≤ p.y → p.y ≤ ws →
      (applyBoundary ws p).orientation = Real.pi - p.orientation) ∧
    (0 ≤ p.x → p.x ≤ ws → (p.y < 0 ∨ ws < p.y) →
      (applyBoundary ws p).orientation = -p.orientation) ∧
    ((p.x < 0 ∨ ws < p.x) → (p.y < 0 ∨ ws < p.y) →
      (applyBoundary ws p).orientation = -(Real.pi - p.orientation)) ∧
    (∀ (r : Robot) (dt : ℝ), r.position.x = r.worldSize →
      r.position.orientation = 0 → r.leftMotorPower = 1 →
      r.rightMotorPower = 1 → 0 < dt → 0 ≤ r.worldSize →
      0 ≤ r.position.y → r.position.y ≤ r.worldSize →
      (updatePosition r dt).position.x = r.worldSize ∧
      (updatePosition r dt).position.orientation = Real.pi) := by
  refine ⟨?_, ?_, ?_, ?_, ?_, ?_, ?_, ?_, ?_, ?_⟩
  · intro h
    unfold applyBoundary applyBoundaryY applyBoundaryX
    split_ifs <;> simp_all
  · intro h
    unfold applyBoundary applyBoundaryY applyBoundaryX
    split_ifs <;> simp_all <;> linarith
  · intro h0 h1
    unfold applyBoundary applyBoundaryY applyBoundaryX
    split_ifs <;> simp_all <;> linarith
  · intro h
    unfold applyBoundary applyBoundaryY applyBoundaryX
    split_ifs <;> simp_all <;> linarith
  · intro h
    unfold applyBoundary applyBoundaryY applyBoundaryX
    split_ifs <;> simp_all <;> linarith
  · intro h0 h1
    unfold applyBoundary applyBoundaryY applyBoundaryX
    split_ifs <;> simp_all <;> linarith
  · intro hx hy0 hy1
    unfold applyBoundary applyBoundaryY applyBoundaryX
    rcases hx with hx | hx <;> split_ifs <;> simp_all <;> linarith
  · intro hx0 hx1 hy
    unfold applyBoundary applyBoundaryY applyBoundaryX
    rcases hy with hy | hy <;> split_ifs <;> simp_all <;> linarith
  · intro hx hy
    unfold applyBoundary applyBoundaryY applyBoundaryX
    rcases hx with hx | hx <;> rcases hy with hy | hy <;>
      split_ifs <;> simp_all <;> linarith
  · intro r dt hx ho hl hr hdt hws' hy0 hyw
    have hkin : kinAdvance wheelBase maxSpeed r.leftMotorPower
        r.rightMotorPower r.position dt
        = ⟨r.worldSize + dt, r.position.y, 0⟩ := by
      unfold kinAdvance wheelBase maxSpeed
      rw [hl, hr, ho, hx]
      rw [if_pos (by norm_num)]
      norm_num [Position.mk.injEq]
    have hnorm : normalizeOrientation ⟨r.worldSize + dt, r.position.y, 0⟩
        = ⟨r.worldSize + dt, r.position.y, 0⟩ := by
      unfold normalizeOrientation
      rw [pymod_eq_self 0 _ Real.two_pi_pos le_rfl Real.two_pi_pos]
    have hbd : applyBoundary r.worldSize ⟨r.worldSize + dt, r.position.y, 0⟩
        = ⟨r.worldSize, r.position.y, Real.pi⟩ := by
      unfold applyBoundary applyBoundaryX
      rw [if_neg (by simp only [] ; linarith), if_pos (by simp only [] ; linarith)]
      unfold applyBoundaryY
      rw [if_neg (by simp only [] ; linarith), if_neg (by simp only [] ; linarith)]
      simp
    unfold updatePosition
    rw [hkin, hnorm, hbd]
    exact ⟨rfl, rfl⟩

/-- C7 witness: the concrete scenario of the claim — a robot at
`x = worldSize = 10`, heading `0`, full forward for a tick of `dt = 1` —
ends clamped at the wall with heading `π`. -/
theorem boundary_reflection_witness :
    (updatePosition ⟨0, ⟨10, 5, 0⟩, 10, 1, 1⟩ 1).position.x = 10 ∧
    (updatePosition ⟨0, ⟨10, 5, 0⟩, 10, 1, 1⟩ 1).position.orientation
      = Real.pi :=
  (boundary_reflection 10 ⟨10, 5, 0⟩ (by norm_num)).2.2.2.2.2.2.2.2.2
    ⟨0, ⟨10, 5, 0⟩, 10, 1, 1⟩ 1 rfl rfl rfl rfl (by norm_num) (by norm_num)
    (by norm_num) (by norm_num)

/-! ## C8: the status snapshot -/

/-- C8 (amended): `get_status` reports the robot's id and its coordinates
rounded to 3 decimals — each within half a thousandth of the internal
pose — but the `orientation` field is the heading converted to degrees
and rounded to 1 decimal, within `0.05` of `degrees(heading)`, not the
heading itself. -/
theorem get_status_spec (r : Robot) :
    (get_status r).robot_id = r.id ∧
    |(get_status r).x - r.position.x| ≤ 1 / 2000 ∧
    |(get_status r).y - r.position.y| ≤ 1 / 2000 ∧
    (get_status r).orientation = pyround (degrees r.position.orientation) 1 ∧
    |(get_status r).orientation - degrees r.position.orientation| ≤ 1 / 20 := by
  refine ⟨rfl, ?_, ?_, rfl, ?_⟩
  · have := pyround_close r.position.x 3
    norm_num at this
    exact this
  · have := pyround_close r.position.y 3
    norm_num at this
    exact this
  · have := pyround_close (degrees r.position.orientation) 1
    norm_num at this
    exact this

/-- C8 counterexample: a robot with heading `π` radians reports
orientation `180` (degrees), and `π ≠ 180` — the reported orientation is
not the robot's heading. -/
theorem get_status_degrees_ctr :
    (get_status ⟨0, ⟨1, 2, Real.pi⟩, 10, 0, 0⟩).orientation = 180 ∧
    Real.pi ≠ 180 := by
  constructor
  · show pyround (degrees Real.pi) 1 = 180
    have hdeg : degrees Real.pi = 180 := by
      unfold degrees
      field_simp
    rw [hdeg]
    unfold pyround
    rw [show (180 : ℝ) * 10 ^ 1 = ((1800 : ℤ) : ℝ) by norm_num, round_intCast]
    norm_num
  · intro h
    have := Real.pi_lt_d2
    rw [h] at this
    norm_num at this

/-! ## C9: formation placement -/

/-- C9: construction fails before creating any robot for `n ≤ 0`; for
positive `n`, robot `i` sits at grid cell
`(row, col) = (i / gridSize, i % gridSize)` with
`spacing = worldSize / (gridSize + 1)` at
`(spacing * (col + 1), spacing * (row + 1))`; `gridSize = ⌈√4⌉ = 2` for
four robots, and `n = 4, worldSize = 10` yields the 2×2 grid
`(10/3, 10/3), (20/3, 10/3), (10/3, 20/3), (20/3, 20/3)`. -/
theorem initializeRobots_spec (ws : ℝ) (hd : ℕ → ℝ) :
    (∀ n : ℤ, n ≤ 0 → initializeRobots ws n hd = none) ∧
    (∀ n : ℤ, 0 < n → ∀ robots, initializeRobots ws n hd = some robots →
      ∀ i : ℕ, i < n.toNat →
        robots.get? i = some
          { id := (i : ℤ)
            position :=
              ⟨ws / ((gridSize n.toNat : ℝ) + 1) * ((i % gridSize n.toNat + 1 : ℕ) : ℝ),
               ws / ((gridSize n.toNat : ℝ) + 1) * ((i / gridSize n.toNat + 1 : ℕ) : ℝ),
               hd i⟩
            worldSize := ws
            leftMotorPower := 0
            rightMotorPower := 0 }) ∧
    gridSize 4 = 2 ∧
    (∀ robots, initializeRobots 10 4 hd = some robots →
      robots.map (fun r => (r.position.x, r.position.y)) =
        [(10 / 3, 10 / 3), (20 / 3, 10 / 3), (10 / 3, 20 / 3), (20 / 3, 20 / 3)]) := by
  refine ⟨?_, ?_, gridSize_four, ?_⟩
  · intro n hn
    unfold initializeRobots
    rw [if_pos hn]
  · intro n hn robots hrb i hi
    unfold initializeRobots at hrb
    rw [if_neg (not_le.mpr hn)] at hrb
    have hrb' := Option.some.inj hrb
    subst hrb'
    rw [List.get?_map, List.get?_range hi]
    rfl
  · intro robots hrb
    unfold initializeRobots at hrb
    rw [if_neg (by norm_num)] at hrb
    have hrb' := Option.some.inj hrb
    subst hrb'
    rw [show ((4 : ℤ).toNat) = 4 from rfl, gridSize_four,
      show List.range 4 = [0, 1, 2, 3] from rfl]
    simp [List.map]
    norm_num

/-- C9 witness: a negative robot count makes construction fail with no
robots created. -/
theorem initializeRobots_spec_witness :
    initializeRobots 10 (-3) (fun _ => 0) = none :=
  (initializeRobots_spec 10 (fun _ => 0)).1 (-3) (by norm_num)

/-! ## C10: omitted dict keys -/

/-- C10 (amended): an omitted `left` key always drives the left motor to
`0.0`; an omitted `right` key drives the right motor to `0.0` provided
the `left` value converts to a float — if `left` is present but
malformed, the exception fires before the right assignment and the right
motor keeps its prior value. -/
theorem missing_key_defaults_zero (r : Robot) (d : CmdDict) :
    (d.left = none → (processCommand r (.dict d)).leftMotorPower = 0) ∧
    (d.right = none → ∀ l, toFloat (d.left.getD (.num 0)) = some l →
      (processCommand r (.dict d)).rightMotorPower = 0) := by
  constructor
  · intro h
    have h0 : toFloat (d.left.getD (.num 0)) = some 0 := by
      rw [h]
      rfl
    simp only [processCommand, h0]
    have hc : clampPower 0 = 0 := by
      unfold clampPower
      norm_num
    cases hr : toFloat (d.right.getD (.num 0)) <;> simp [hc]
  · intro h l hl
    have h0 : toFloat (d.right.getD (.num 0)) = some 0 := by
      rw [h]
      rfl
    simp only [processCommand, hl, h0]
    unfold clampPower
    norm_num

/-- C10 witness: a dict without a `left` key zeroes the left motor even
though the prior left power was `0.9`. -/
theorem missing_key_defaults_zero_witness :
    (processCommand ⟨0, ⟨0, 0, 0⟩, 10, 0.9, 0.9⟩
        (.dict ⟨none, some (.num 0.4)⟩)).leftMotorPower = 0 :=
  (missing_key_defaults_zero _ _).1 rfl

/-- C10 counterexample: a dict that omits `right` but carries a malformed
`left` does not zero the right motor — the left conversion raises first,
so the right motor keeps its prior power `0.7 ≠ 0`. -/
theorem missing_right_key_ctr :
    (processCommand ⟨0, ⟨0, 0, 0⟩, 10, 0.2, 0.7⟩
        (.dict ⟨some .malformed, none⟩)).rightMotorPower = 0.7 ∧
    (0.7 : ℝ) ≠ 0 := by
  refine ⟨?_, by norm_num⟩
  simp [processCommand, toFloat]

end RobotEmulation
